import Mathlib

/-!
Verification development for the playlist-generation pipeline in
`generate_playlists.py` (fetch → gunzip → parse → sort → format → write).

The embedding translates the source functions into pure Lean functions:

* Python strings are Lean `String`s; single-character `str.replace` calls are
  modelled as maps/filters over the character list (`String.data`), which is
  exactly what they do.
* Python byte strings are `List Nat`; `bytes.decode("utf-8")` is modelled by an
  executable strict UTF-8 decoder (`utf8Decode`), returning `Option String`
  (`Option.none` models a raised `UnicodeDecodeError`).
* Machine-level effects (HTTP, gzip, the filesystem) are modelled by small
  outcome types (`HttpResult`, `BodyModel`, `FsOutcome`) that enumerate the
  behaviour classes the code distinguishes; `json.loads` is an explicit
  parameter of `fetch_url` (the code only branches on success/failure of it).
* A raised Python exception is `Except.error`; logging is modelled by the
  `errorLogged`/`warnLogged` fields of the results.
-/

/-! ### Characters and newline counting -/


/-- The newline character. -/
def nlChar : Char := Char.ofNat 10

/-- The double-quote character. -/
def dqChar : Char := Char.ofNat 34

/-- The single-quote (apostrophe) character. -/
def sqChar : Char := Char.ofNat 39

/-- The comma character. -/
def commaChar : Char := Char.ofNat 44

/-- A one-character string holding a double quote. -/
def dq : String := String.singleton dqChar

/-- Number of newline characters in a string. -/
def countNl (s : String) : Nat := s.data.count nlChar

/-- Boolean test that a string contains no newline character. -/
def strClean (s : String) : Bool := s.data.count nlChar == 0

/-! ### Sanitizers used by `format_extinf` (lines 83-85 of the source)

`tvg_name.replace('"', "'")` and `group_title.replace('"', "'")` replace every
double quote by a single quote; `display_name.replace(',', '')` deletes every
comma.  With a one-character pattern, Python `str.replace` is a per-character
map (resp. filter), which is how we embed it. -/


/-- Model of `s.replace('"', "'")`. -/
def replaceQuotes (s : String) : String :=
  String.mk (s.data.map (fun c => if c = dqChar then sqChar else c))

/-- Model of `s.replace(',', '')`. -/
def stripCommas (s : String) : String :=
  String.mk (s.data.filter (fun c => decide (c ≠ commaChar)))

/-! ### Python builtin models: `int(...)`, `str(...)`, `str.isdigit`, `str.lower`

`int(v)` on a string accepts optional surrounding ASCII whitespace, an optional
sign, and a nonempty run of ASCII digits with optional single underscores
between digits (CPython group separators).  Non-ASCII digit forms are outside
the model.  `str.isdigit` is modelled on ASCII digits. -/


/-- Python whitespace characters stripped by `int(str)`. -/
def isPySpace (c : Char) : Bool :=
  c == Char.ofNat 32 || c == Char.ofNat 9 || c == nlChar ||
  c == Char.ofNat 13 || c == Char.ofNat 11 || c == Char.ofNat 12

/-- Strip leading and trailing Python whitespace from a character list. -/
def trimChars (cs : List Char) : List Char :=
  ((cs.dropWhile isPySpace).reverse.dropWhile isPySpace).reverse

/-- Tail of a digit run: digits with single underscores allowed between
digits. -/
def digitsTail : List Char → Bool
  | [] => true
  | c :: rest =>
    if c = Char.ofNat 95 then
      match rest with
      | d :: rest2 => d.isDigit && digitsTail rest2
      | [] => false
    else
      c.isDigit && digitsTail rest

/-- A nonempty underscore-separated digit run. -/
def digitsRun : List Char → Bool
  | [] => false
  | c :: rest => c.isDigit && digitsTail rest

/-- Numeric value of a digit run (underscores skipped). -/
def digitsVal (cs : List Char) : Nat :=
  (cs.filter Char.isDigit).foldl (fun a c => a * 10 + (c.toNat - 48)) 0

/-- Model of Python `int(s)` for a string argument: `Option.none` models a
raised `ValueError`. -/
def pyIntOfStr (s : String) : Option Int :=
  match trimChars s.data with
  | [] => Option.none
  | c :: rest =>
    if c = Char.ofNat 45 then
      if digitsRun rest then Option.some (-(digitsVal rest : Int)) else Option.none
    else if c = Char.ofNat 43 then
      if digitsRun rest then Option.some (digitsVal rest : Int) else Option.none
    else
      if digitsRun (c :: rest) then Option.some (digitsVal (c :: rest) : Int) else Option.none

/-- Model of Python `s.isdigit()` (ASCII digits). -/
def pyIsdigit (s : String) : Bool :=
  !s.data.isEmpty && s.data.all Char.isDigit

/-- Model of Python `s.lower()` (ASCII case folding). -/
def pyLower (s : String) : String := String.mk (s.data.map Char.toLower)

/-- A JSON value usable as the `chno` field of a channel: the source reaches it
with `int(...)` (sort key, line 115) and `str(...).isdigit()` (format, line
80), so integers, strings and `null` are distinguished.  (JSON floats are
outside the model; no claim exercises them.) -/
inductive ChnoVal where
  | ofInt (n : Int)
  | ofStr (s : String)
  | ofNull
deriving DecidableEq

/-- Model of Python `int(v)` on a `chno` value; `Option.none` models a raised
exception (`ValueError` for a bad string, `TypeError` for `None`). -/
def ChnoVal.toInt : ChnoVal → Option Int
  | .ofInt n => Option.some n
  | .ofStr s => pyIntOfStr s
  | .ofNull => Option.none

/-- Model of Python `str(v)` on a `chno` value (`str(None)` is `"None"`). -/
def ChnoVal.render : ChnoVal → String
  | .ofInt n => toString n
  | .ofStr s => s
  | .ofNull => "None"

/-! ### The entry formatter: `format_extinf` (source lines 77-94) -/


/-- The `chno_str` computation of line 80:
`str(tvg_chno) if tvg_chno is not None and str(tvg_chno).isdigit() else ""`. -/
def chnoRender : Option ChnoVal → String
  | Option.some v => match pyIsdigit v.render with
    | true => v.render
    | false => ""
  | Option.none => ""

/-- Model of `format_extinf` (lines 77-94).  The f-string is embedded as
string concatenation in the same field order; `dq` is the literal double-quote
character around each attribute value. -/
def format_extinf (channel_id tvg_id : String) (tvg_chno : Option ChnoVal)
    (tvg_name tvg_logo group_title display_name : String) : String :=
  "#EXTINF:-1 channel-id=" ++ dq ++ channel_id ++ dq ++
  " tvg-id=" ++ dq ++ tvg_id ++ dq ++
  " tvg-chno=" ++ dq ++ chnoRender tvg_chno ++ dq ++
  " tvg-name=" ++ dq ++ replaceQuotes tvg_name ++ dq ++
  " tvg-logo=" ++ dq ++ tvg_logo ++ dq ++
  " group-title=" ++ dq ++ replaceQuotes group_title ++ dq ++ "," ++
  stripCommas display_name ++ "\n"

/-! ### The channel catalog and the transformer body (source lines 97-137)

A Python dict preserves insertion order and has unique keys; the catalog is
embedded as an association list in insertion order (`Catalog`).  A claim that
needs key uniqueness states it as a `Nodup` hypothesis.  A channel record
holds the four fields the code reads; an absent field is `Option.none`
(`dict.get` supplies the defaults at each use site, as in the source). -/


/-- A channel record of the catalog: the fields read by the source.  A string
field whose JSON value has a non-string type is outside this typed fragment
(the loop would raise on `.replace`/`.join`; see `decodeChannel`). -/
structure Channel where
  chno : Option ChnoVal
  name : Option String
  logo : Option String
  groups : Option (List String)
deriving DecidableEq

/-- The `channels` mapping, in insertion order. -/
abbrev Catalog := List (String × Channel)

/-- Model of the dict lookup `channels_to_process[k]` / implicit dict order:
first binding of key `k`. -/
def lookupCh (cat : Catalog) (k : String) : Option Channel :=
  (cat.find? (fun kc => kc.1 == k)).map (fun kc => kc.2)

/-- Sort-key evaluation for `sort == 'chno'` (line 115):
`int(channels_to_process[k].get('chno', 99999))`.  `Option.none` models a
raised exception. -/
def chnoSortKey (cat : Catalog) (k : String) : Option Int :=
  (lookupCh cat k).bind (fun c => (c.chno.getD (ChnoVal.ofInt 99999)).toInt)

/-- Total version of `chnoSortKey` used inside the comparator once all key
evaluations are known to succeed. -/
def chnoSortKeyD (cat : Catalog) (k : String) : Int :=
  (chnoSortKey cat k).getD 0

/-- Python string comparison `x < y`: lexicographic on code points.  (Lean's
own `String` order is not used because its comparison functions do not reduce
in the kernel.) -/
def charsLt : List Char → List Char → Bool
  | _, [] => false
  | [], _ :: _ => true
  | a :: as, b :: bs => if a < b then true else if b < a then false else charsLt as bs

/-- Python string comparison `x <= y`, i.e. not `y < x`. -/
def pyStrLe (x y : String) : Bool := !(charsLt y.data x.data)

/-- Sort-key evaluation for the default name sort (line 117):
`channels_to_process[k].get('name', '').lower()`. -/
def nameSortKey (cat : Catalog) (k : String) : String :=
  pyLower (((lookupCh cat k).bind Channel.name).getD "")

/-- Evaluate `f` on every element, failing if any evaluation fails. -/
def optMapAll {A B : Type} (f : A → Option B) : List A → Option (List B)
  | [] => Option.some []
  | a :: rest => (f a).bind (fun b => (optMapAll f rest).map (fun bs => b :: bs))

/-- All `chno` sort keys, evaluated eagerly as `sorted` does; `Option.none`
models the exception that aborts the sort (caught at line 118). -/
def keyEvalChno (cat : Catalog) : Option (List Int) :=
  optMapAll (chnoSortKey cat) (cat.map Prod.fst)

/-- Model of lines 113-120: `sorted(keys, key=...)` with the try/except
fallback to insertion order.  Python `sorted` is a stable ascending sort;
insertion sort with a total preorder computes the same (unique) stable
ascending order. -/
def stirrSortedIds (cat : Catalog) (sort : String) : List String :=
  let keys := cat.map Prod.fst
  match sort == "chno" with
  | true =>
    match keyEvalChno cat with
    | Option.some _ =>
      List.insertionSort (fun a b => chnoSortKeyD cat a ≤ chnoSortKeyD cat b) keys
    | Option.none => keys
  | false =>
    List.insertionSort (fun a b => pyStrLe (nameSortKey cat a) (nameSortKey cat b) = true) keys

/-- True when the chno sort fell back to insertion order and logged the
line-119 warning.  (The name-sort key never raises on the typed fragment.) -/
def sortFellBack (cat : Catalog) (sort : String) : Bool :=
  sort == "chno" && (keyEvalChno cat).isNone

/-- Model of Python `sep.join(l)`. -/
def pyJoin (sep : String) : List String → String
  | [] => ""
  | [s] => s
  | s :: rest => s ++ sep ++ pyJoin sep rest

/-- The group title of line 129:
`', '.join(groups_list) if groups_list else 'Uncategorized'` with
`groups_list = channel.get('groups', [])`. -/
def groupTitleOf (c : Channel) : String :=
  match c.groups.getD [] with
  | [] => "Uncategorized"
  | gs => pyJoin ", " gs

/-- The stream URL of line 133: `STREAM_URL_TEMPLATE.replace('{id}', channel_id)`
on the fixed template of line 100, which contains the placeholder exactly once
(`str.replace` does not rescan the substituted text). -/
def streamUrlFor (channel_id : String) : String :=
  "https://jmp2.uk/str-" ++ channel_id ++ ".m3u8"

/-- The EPG URL constant of line 101. -/
def stirrEpgUrl : String :=
  "https://github.com/matthuisman/i.mjh.nz/raw/master/Stirr/all.xml.gz"

/-- The header line of line 109. -/
def headerLine : String := "#EXTM3U url-tvg=" ++ dq ++ stirrEpgUrl ++ dq ++ "\n"

/-- The `#EXTINF` line of one channel, with the defaults of lines 125-130
applied: `tvg_id = channel_id`, name default `'Unknown Channel'`, logo default
`''`. -/
def extinfFor (channel_id : String) (c : Channel) : String :=
  format_extinf channel_id channel_id c.chno (c.name.getD "Unknown Channel")
    (c.logo.getD "") (groupTitleOf c) (c.name.getD "Unknown Channel")

/-- The two output list entries one channel appends (lines 132-135). -/
def channelEntry (channel_id : String) (c : Channel) : List String :=
  [extinfFor channel_id c, streamUrlFor channel_id ++ "\n"]

/-- The metadata line reached through the loop lookup
`channels_to_process[channel_id]`; the lookup cannot fail for an id produced
by the sort (`KeyError` is unreachable), hence the empty default. -/
def metaLineOf (cat : Catalog) (k : String) : String :=
  match lookupCh cat k with
  | Option.some c => extinfFor k c
  | Option.none => ""

/-- The `output_lines` list of `generate_stirr_m3u` (lines 109-135): header,
then per sorted channel id the `#EXTINF` line and the stream-URL line. -/
def stirrLines (cat : Catalog) (sort : String) : List String :=
  headerLine :: (stirrSortedIds cat sort).flatMap (fun k =>
    match lookupCh cat k with
    | Option.some c => channelEntry k c
    | Option.none => [])

/-- The playlist text handed to the writer (line 137): `"".join(output_lines)`. -/
def stirrContent (cat : Catalog) (sort : String) : String :=
  String.join (stirrLines cat sort)

/-! ### Python values, truthiness, membership, and the fetch-result gate

`generate_stirr_m3u` receives whatever `json.loads` produced.  `PyVal` covers
the JSON value shapes (floats are out of scope; no claim needs them).
`if not data or 'channels' not in data` (line 105) needs truthiness and the
`in` operator; `in` raises `TypeError` on values that are not containers. -/


/-- A parsed JSON value as a Python object. -/
inductive PyVal where
  | null
  | bool (b : Bool)
  | int (n : Int)
  | str (s : String)
  | list (xs : List PyVal)
  | dict (kvs : List (String × PyVal))

/-- Python exceptions that can escape the modelled code paths. -/
inductive PyExn where
  | typeError
  | attrError
  | osError
deriving DecidableEq

/-- Python truthiness of a parsed JSON value. -/
def pyTruthy : PyVal → Bool
  | .null => false
  | .bool b => b
  | .int n => !(n == 0)
  | .str s => !(s == "")
  | .list xs => !xs.isEmpty
  | .dict kvs => !kvs.isEmpty

/-- Test whether `pat` starts the character list. -/
def charsStartWith : List Char → List Char → Bool
  | [], _ => true
  | _ :: _, [] => false
  | a :: as, b :: bs => a == b && charsStartWith as bs

/-- Test whether `pat` occurs contiguously in the character list. -/
def charsContain (pat : List Char) : List Char → Bool
  | [] => charsStartWith pat []
  | c :: rest => charsStartWith pat (c :: rest) || charsContain pat rest

/-- Model of Python `key in v`: substring test on strings, element equality on
lists (only string elements can equal a string key), key lookup on dicts, and
a raised `TypeError` on non-container values. -/
def pyContains (v : PyVal) (key : String) : Except PyExn Bool :=
  match v with
  | .str s => .ok (charsContain key.data s.data)
  | .list xs => .ok (xs.any (fun x => match x with | .str t => t == key | _ => false))
  | .dict kvs => .ok (kvs.any (fun kv => kv.1 == key))
  | _ => .error .typeError

/-- Model of `kvs.get(k)`: first binding of `k`. -/
def dictGet (kvs : List (String × PyVal)) (k : String) : Option PyVal :=
  (kvs.find? (fun kv => kv.1 == k)).map (fun kv => kv.2)

/-! ### Decoding a `channels` value into the typed fragment

The loop of lines 123-135 reads each channel with `.get` and formats the
fields.  The decoding below accepts exactly the channel dicts whose fields
have the types the loop's string operations need.  An ill-typed catalog makes
the Python loop raise (`.replace`/`.join`/`.keys` on a wrong type); the model
folds all those late failures into one raised `AttributeError`.  Every claim
quantifies inside the typed fragment or fails before this point, so the
coarseness is unobservable in the theorems below. -/


/-- Decode a `chno` field value. -/
def decodeChno : PyVal → Option ChnoVal
  | .int n => Option.some (.ofInt n)
  | .str s => Option.some (.ofStr s)
  | .null => Option.some .ofNull
  | _ => Option.none

/-- Decode an optional string field. -/
def decodeStrField : Option PyVal → Option (Option String)
  | Option.none => Option.some Option.none
  | Option.some (.str s) => Option.some (Option.some s)
  | Option.some _ => Option.none

/-- Decode an optional `chno` field. -/
def decodeChnoField : Option PyVal → Option (Option ChnoVal)
  | Option.none => Option.some Option.none
  | Option.some v => (decodeChno v).map Option.some

/-- Decode an optional `groups` field (a list of strings). -/
def decodeGroups : Option PyVal → Option (Option (List String))
  | Option.none => Option.some Option.none
  | Option.some (.list xs) =>
      (xs.mapM (fun x => match x with
        | PyVal.str s => Option.some s
        | _ => Option.none)).map Option.some
  | Option.some _ => Option.none

/-- Decode one channel value. -/
def decodeChannel : PyVal → Option Channel
  | .dict kvs => do
      let chno ← decodeChnoField (dictGet kvs "chno")
      let name ← decodeStrField (dictGet kvs "name")
      let logo ← decodeStrField (dictGet kvs "logo")
      let groups ← decodeGroups (dictGet kvs "groups")
      Option.some { chno := chno, name := name, logo := logo, groups := groups }
  | _ => Option.none

/-- Decode the `channels` mapping. -/
def decodeCatalog : PyVal → Option Catalog
  | .dict kvs => kvs.mapM (fun kv => (decodeChannel kv.2).map (fun c => (kv.1, c)))
  | _ => Option.none

/-- The JSON shape the happy path consumes: a dict whose `channels` key holds
the catalog value. -/
def stirrData (v : PyVal) : PyVal := PyVal.dict [("channels", v)]

/-! ### The writer (source lines 63-75) and the full generator

`write_m3u_file` checks/creates the output directory OUTSIDE its `try` block
(lines 65-67): a failing `os.makedirs` raises out of the function.  Only the
`open`/`write` of lines 70-73 is guarded, and only `IOError` is caught.
`FsOutcome` enumerates the relevant filesystem behaviour. -/


/-- Filesystem behaviour for one `write_m3u_file` call: whether the output
directory already exists, whether `os.makedirs` would succeed, and whether
`open`+`write` would succeed (failure raising `IOError`). -/
structure FsOutcome where
  dirExists : Bool
  mkdirOk : Bool
  openWriteOk : Bool
deriving DecidableEq

/-- Result of a `write_m3u_file` call that returned (did not raise). -/
structure WriteOut where
  wrote : Bool
  errorLogged : Bool
deriving DecidableEq

/-- Model of `write_m3u_file` (lines 63-75). -/
def write_m3u_file (fs : FsOutcome) (filename content : String) : Except PyExn WriteOut :=
  match fs.dirExists, fs.mkdirOk, fs.openWriteOk with
  | false, false, _ => .error .osError
  | _, _, true => .ok { wrote := true, errorLogged := false }
  | _, _, false => .ok { wrote := false, errorLogged := true }

/-- The `written` observation derived from a `WriteOut`: the file name and
content when the write happened. -/
def writtenOf (w : WriteOut) (filename content : String) : Option (String × String) :=
  match w.wrote with
  | true => Option.some (filename, content)
  | false => Option.none

/-- Observable outcome of one `generate_stirr_m3u` call that returned. -/
structure GenResult where
  written : Option (String × String)
  errorLogged : Bool
  warnLogged : Bool
deriving DecidableEq

/-- The body of `generate_stirr_m3u` past the line-105 gate: extract
`channels` (lines 110), decode them, build the content and call the writer
(lines 109-137).  A gate-passing value that is not a dict has no `.get`
(`AttributeError`). -/
def generate_body (fs : FsOutcome) (v : PyVal) (sort : String) : Except PyExn GenResult :=
  match v with
  | .dict kvs =>
    match decodeCatalog ((dictGet kvs "channels").getD (.dict [])) with
    | Option.some cat =>
      match write_m3u_file fs "stirr_all.m3u" (stirrContent cat sort) with
      | .error e => .error e
      | .ok w =>
        .ok { written := writtenOf w "stirr_all.m3u" (stirrContent cat sort),
              errorLogged := w.errorLogged,
              warnLogged := sortFellBack cat sort }
    | Option.none => .error .attrError
  | _ => .error .attrError

/-- Model of `generate_stirr_m3u` (lines 97-137) as a function of the fetch
result (`data`, the value `fetch_url` returned, `Option.none` for a failed
fetch), the sort key, and the filesystem behaviour.  `Except.error` models an
exception escaping the function. -/
def generate_stirr_m3u (fs : FsOutcome) (data : Option PyVal) (sort : String) :
    Except PyExn GenResult :=
  match data with
  | Option.none => .ok { written := Option.none, errorLogged := true, warnLogged := false }
  | Option.some v =>
    match pyTruthy v with
    | false => .ok { written := Option.none, errorLogged := true, warnLogged := false }
    | true =>
      match pyContains v "channels" with
      | .error e => .error e
      | .ok false => .ok { written := Option.none, errorLogged := true, warnLogged := false }
      | .ok true => generate_body fs v sort

/-! ### The fetcher: `fetch_url` (source lines 17-61)

The HTTP GET and gzip are modelled by behaviour classes: `HttpResult`
distinguishes a raised `requests` exception from a response; a response body
is classified by how `gzip.GzipFile(...).read()` treats it —

* `notGzip raw`: wrong magic number → `BadGzipFile` → the `except` of line 36
  falls back to decoding `raw` directly;
* `gzipOf raw payload`: a valid gzip stream whose decompressed bytes are
  `payload`;
* `corruptGzip raw`: correct magic but a failing stream (truncated input ⇒
  `EOFError`, bad CRC ⇒ `zlib.error` …) → the `except Exception` of line 39
  re-raises → the outer handler of line 59 returns `None`.

`bytes.decode('utf-8')` is the strict decoder below; `json.loads` is passed
in as a function (the code only branches on its success). -/


/-- Strict UTF-8 decoding of a byte list, as `bytes.decode('utf-8')`:
rejects bad leading bytes, bad continuation bytes, overlong forms, surrogates
and code points beyond U+10FFFF. -/
def utf8Dec : List Nat → Option (List Char)
  | [] => Option.some []
  | b :: bs =>
    if b < 0x80 then
      (utf8Dec bs).map (fun cs => Char.ofNat b :: cs)
    else if b < 0xC2 then Option.none
    else if b < 0xE0 then
      match bs with
      | b2 :: bs2 =>
        if 0x80 ≤ b2 ∧ b2 < 0xC0 then
          (utf8Dec bs2).map (fun cs => Char.ofNat ((b - 0xC0) * 0x40 + (b2 - 0x80)) :: cs)
        else Option.none
      | [] => Option.none
    else if b < 0xF0 then
      match bs with
      | b2 :: b3 :: bs3 =>
        if (if b = 0xE0 then 0xA0 ≤ b2 ∧ b2 < 0xC0
            else if b = 0xED then 0x80 ≤ b2 ∧ b2 < 0xA0
            else 0x80 ≤ b2 ∧ b2 < 0xC0) ∧ 0x80 ≤ b3 ∧ b3 < 0xC0 then
          (utf8Dec bs3).map (fun cs =>
            Char.ofNat ((b - 0xE0) * 0x1000 + (b2 - 0x80) * 0x40 + (b3 - 0x80)) :: cs)
        else Option.none
      | _ => Option.none
    else if b < 0xF5 then
      match bs with
      | b2 :: b3 :: b4 :: bs4 =>
        if (if b = 0xF0 then 0x90 ≤ b2 ∧ b2 < 0xC0
            else if b = 0xF4 then 0x80 ≤ b2 ∧ b2 < 0x90
            else 0x80 ≤ b2 ∧ b2 < 0xC0) ∧ 0x80 ≤ b3 ∧ b3 < 0xC0 ∧ 0x80 ≤ b4 ∧ b4 < 0xC0 then
          (utf8Dec bs4).map (fun cs =>
            Char.ofNat ((b - 0xF0) * 0x40000 + (b2 - 0x80) * 0x1000 +
              (b3 - 0x80) * 0x40 + (b4 - 0x80)) :: cs)
        else Option.none
      | _ => Option.none
    else Option.none

/-- Model of `bytes.decode('utf-8')`; `Option.none` models a raised
`UnicodeDecodeError`. -/
def utf8Decode (bs : List Nat) : Option String :=
  (utf8Dec bs).map String.mk

/-- Behaviour class of a response body under gzip decompression. -/
inductive BodyModel where
  | notGzip (raw : List Nat)
  | gzipOf (raw : List Nat) (payload : List Nat)
  | corruptGzip (raw : List Nat)

/-- The raw bytes of the body (`response.content`). -/
def BodyModel.rawBytes : BodyModel → List Nat
  | .notGzip r => r
  | .gzipOf r _ => r
  | .corruptGzip r => r

/-- An HTTP response: whether `raise_for_status` passes, and the body. -/
structure HttpResponse where
  statusOk : Bool
  body : BodyModel

/-- Outcome of `requests.get`: a raised `RequestException` or a response. -/
inductive HttpResult where
  | exn
  | resp (r : HttpResponse)

/-- The possible return values of `fetch_url`: `noData` is Python `None`. -/
inductive FetchReturn where
  | noData
  | jsonData (v : PyVal)
  | textData (s : String)
  | streamData (r : HttpResponse)

/-- Model of `fetch_url` (lines 17-61) over the HTTP outcome, with
`json.loads` passed as a function (`Option.none` modelling a raised
`JSONDecodeError`).  Every failure path of the source collapses to
`FetchReturn.noData` through the handlers of lines 53-61. -/
def fetch_url (http : HttpResult) (jsonLoads : String → Option PyVal)
    (is_json is_gzipped stream : Bool) : FetchReturn :=
  match http with
  | .exn => .noData
  | .resp r =>
    match r.statusOk with
    | false => .noData
    | true =>
      match stream with
      | true => .streamData r
      | false =>
        let decoded : Option String :=
          match is_gzipped with
          | true =>
            match r.body with
            | .gzipOf _ payload => utf8Decode payload
            | .notGzip raw => utf8Decode raw
            | .corruptGzip _ => Option.none
          | false => utf8Decode r.body.rawBytes
        match decoded with
        | Option.none => .noData
        | Option.some t =>
          match is_json with
          | true =>
            match jsonLoads t with
            | Option.some v => .jsonData v
            | Option.none => .noData
          | false => .textData t

/-- Convertibility of every present `chno` value in the catalog: the
hypothesis of the chno-sort claim, stated decidably. -/
def chnosConvertible (cat : Catalog) : Bool :=
  cat.all (fun kc => match kc.2.chno with
    | Option.some v => v.toInt.isSome
    | Option.none => true)

/-! ### Concrete inputs used by witnesses and counterexamples -/


/-- Channels numbered 30/10/20 plus one channel without a number (the worked
example of the chno-sort claim). -/
def c2cat : Catalog :=
  [("a", ⟨Option.some (ChnoVal.ofInt 30), Option.some "Alpha", Option.none, Option.none⟩),
   ("b", ⟨Option.some (ChnoVal.ofInt 10), Option.some "Bravo", Option.none, Option.none⟩),
   ("c", ⟨Option.some (ChnoVal.ofInt 20), Option.some "Charlie", Option.none, Option.none⟩),
   ("d", ⟨Option.none, Option.some "Delta", Option.none, Option.none⟩)]

/-- Channels named `zebra` and `Apple` (the worked example of the name-sort
claim). -/
def c3cat : Catalog :=
  [("z", ⟨Option.none, Option.some "zebra", Option.none, Option.none⟩),
   ("p", ⟨Option.none, Option.some "Apple", Option.none, Option.none⟩)]

/-- A catalog whose first channel has a `chno` that `int()` rejects. -/
def c4cat : Catalog :=
  [("z", ⟨Option.some (ChnoVal.ofStr "not-a-number"), Option.some "Zed",
      Option.none, Option.none⟩),
   ("y", ⟨Option.some (ChnoVal.ofInt 1), Option.some "Why", Option.none, Option.none⟩)]

/-- The `c4cat` catalog as a parsed JSON value. -/
def c4val : PyVal :=
  PyVal.dict
    [("z", PyVal.dict [("chno", PyVal.str "not-a-number"), ("name", PyVal.str "Zed")]),
     ("y", PyVal.dict [("chno", PyVal.int 1), ("name", PyVal.str "Why")])]

/-- A catalog with one channel whose display name contains a newline. -/
def c1cexCat : Catalog :=
  [("x", ⟨Option.none, Option.some ("A" ++ String.singleton nlChar ++ "B"),
      Option.none, Option.none⟩)]

/-- A small newline-free catalog with every field populated on one channel and
defaulted on the other. -/
def c1wCat : Catalog :=
  [("k2", ⟨Option.some (ChnoVal.ofInt 2), Option.some "Beta", Option.some "http://logo",
      Option.some ["News", "Local"]⟩),
   ("k1", ⟨Option.none, Option.none, Option.none, Option.none⟩)]

/-- The `c1wCat` catalog as the parsed JSON value `fetch_url` would return. -/
def c1wVal : PyVal :=
  PyVal.dict
    [("k2", PyVal.dict [("chno", PyVal.int 2), ("name", PyVal.str "Beta"),
        ("logo", PyVal.str "http://logo"),
        ("groups", PyVal.list [PyVal.str "News", PyVal.str "Local"])]),
     ("k1", PyVal.dict [])]

/-- Fully-working filesystem behaviour. -/
def fsOk : FsOutcome := ⟨true, true, true⟩

/-- Missing output directory and failing `os.makedirs`. -/
def fsNoMkdir : FsOutcome := ⟨false, false, true⟩

/-- Directory present but `open`/`write` fails with `IOError`. -/
def fsBadWrite : FsOutcome := ⟨true, true, false⟩

/-! ### Claim C1: playlist line structure -/


/-- All strings of one catalog entry that reach the output are newline-free. -/
def chClean (kc : String × Channel) : Bool :=
  strClean kc.1 &&
  (match kc.2.name with | Option.some s => strClean s | Option.none => true) &&
  (match kc.2.logo with | Option.some s => strClean s | Option.none => true) &&
  (match kc.2.groups with | Option.some gs => gs.all strClean | Option.none => true)

/-- Newline-freeness of a whole catalog. -/
def catClean (cat : Catalog) : Bool := cat.all chClean

/-! ### Claims C6 and C10: the fetch-result gate -/


/-- The line-105 gate fails cleanly: the fetch returned nothing, or a falsy
value, or a container (string, list or dict) without a `channels` member. -/
def gateFails (data : Option PyVal) : Bool :=
  match data with
  | Option.none => true
  | Option.some v =>
    match pyTruthy v with
    | false => true
    | true =>
      match pyContains v "channels" with
      | Except.ok false => true
      | _ => false

/-! ### Theorems -/

theorem strClean_eq_zero {s : String} (h : strClean s = true) : countNl s = 0 := by
  simpa [strClean, countNl] using h

theorem strDataAppend (s t : String) : (s ++ t).data = s.data ++ t.data := rfl

theorem countNl_append (s t : String) : countNl (s ++ t) = countNl s + countNl t := by
  simp [countNl, strDataAppend, List.count_append]

theorem clean_append {s t : String} (hs : countNl s = 0) (ht : countNl t = 0) :
    countNl (s ++ t) = 0 := by
  rw [countNl_append, hs, ht]

theorem count_map_quotes (a : Char) (ha : a ≠ dqChar) (ha2 : a ≠ sqChar) (l : List Char) :
    (l.map (fun c => if c = dqChar then sqChar else c)).count a = l.count a := by
  induction l with
  | nil => rfl
  | cons c cs ih =>
    by_cases hc : c = dqChar
    · subst hc
      rw [List.map_cons, if_pos rfl, List.count_cons_of_ne ha2, List.count_cons_of_ne ha, ih]
    · rw [List.map_cons, if_neg hc, List.count_cons, List.count_cons, ih]

theorem countNl_replaceQuotes (s : String) : countNl (replaceQuotes s) = countNl s :=
  count_map_quotes nlChar (by decide) (by decide) s.data

theorem countNl_stripCommas (s : String) : countNl (stripCommas s) = countNl s :=
  List.count_filter (by decide)

/-- After `replaceQuotes`, no double quote remains. -/
theorem replaceQuotes_no_dq (s : String) : (replaceQuotes s).data.count dqChar = 0 := by
  rw [List.count_eq_zero]
  intro hmem
  rcases List.mem_map.mp hmem with ⟨c, _, hc⟩
  by_cases h : c = dqChar
  · rw [if_pos h] at hc
    exact absurd hc (by decide)
  · rw [if_neg h] at hc
    exact h hc

/-- Every double quote becomes a single quote: the single-quote count of the
result is the original single-quote count plus the original double-quote
count. -/
theorem replaceQuotes_sq_count (s : String) :
    (replaceQuotes s).data.count sqChar = s.data.count sqChar + s.data.count dqChar := by
  show (s.data.map (fun c => if c = dqChar then sqChar else c)).count sqChar
      = s.data.count sqChar + s.data.count dqChar
  induction s.data with
  | nil => rfl
  | cons c cs ih =>
    by_cases hc : c = dqChar
    · subst hc
      rw [List.map_cons, if_pos rfl, List.count_cons_self,
        List.count_cons_of_ne (by decide), List.count_cons_self, ih]
      omega
    · by_cases hc2 : c = sqChar
      · subst hc2
        rw [List.map_cons, if_neg hc, List.count_cons_self, List.count_cons_self,
          List.count_cons_of_ne (by decide : dqChar ≠ sqChar), ih]
        omega
      · rw [List.map_cons, if_neg hc, List.count_cons_of_ne (Ne.symm ?hne),
          List.count_cons_of_ne (Ne.symm ?hne2), List.count_cons_of_ne (Ne.symm ?hne3), ih]
        case hne => exact hc2
        case hne2 => exact hc2
        case hne3 => exact hc

/-- After `stripCommas`, no comma remains. -/
theorem stripCommas_no_comma (s : String) : (stripCommas s).data.count commaChar = 0 := by
  rw [List.count_eq_zero]
  intro hmem
  have h2 := (List.mem_filter.mp hmem).2
  simp at h2

theorem clean_append_one {s t : String} (hs : countNl s = 0) (ht : countNl t = 1) :
    countNl (s ++ t) = 1 := by
  rw [countNl_append, hs, ht]

theorem pyIsdigit_clean {s : String} (h : pyIsdigit s = true) : countNl s = 0 := by
  rw [countNl, List.count_eq_zero]
  intro hmem
  have hall : s.data.all Char.isDigit = true := by
    have := h
    rw [pyIsdigit] at this
    exact (Bool.and_eq_true_iff.mp this).2
  have hd := List.all_eq_true.mp hall nlChar hmem
  exact absurd hd (by decide)

theorem countNl_chnoRender (o : Option ChnoVal) : countNl (chnoRender o) = 0 := by
  match o with
  | Option.none => decide
  | Option.some v =>
    show countNl (match pyIsdigit v.render with
      | true => v.render
      | false => "") = 0
    cases h : pyIsdigit v.render with
    | true => simpa [h] using pyIsdigit_clean h
    | false => simp [h]; decide

/-- Shape of a `format_extinf` result: when none of the string inputs contains
a newline, the result contains exactly one newline and it is the final
character. -/
theorem format_extinf_line (channel_id tvg_id : String) (tvg_chno : Option ChnoVal)
    (tvg_name tvg_logo group_title display_name : String)
    (h1 : countNl channel_id = 0) (h2 : countNl tvg_id = 0)
    (h3 : countNl tvg_name = 0) (h4 : countNl tvg_logo = 0)
    (h5 : countNl group_title = 0) (h6 : countNl display_name = 0) :
    countNl (format_extinf channel_id tvg_id tvg_chno
        tvg_name tvg_logo group_title display_name) = 1 ∧
    (format_extinf channel_id tvg_id tvg_chno
        tvg_name tvg_logo group_title display_name).data.getLast? =
      Option.some nlChar := by
  have hq : countNl dq = 0 := by decide
  have hname : countNl (replaceQuotes tvg_name) = 0 := by
    rw [countNl_replaceQuotes]; exact h3
  have hgrp : countNl (replaceQuotes group_title) = 0 := by
    rw [countNl_replaceQuotes]; exact h5
  have hdisp : countNl (stripCommas display_name) = 0 := by
    rw [countNl_stripCommas]; exact h6
  have hchno : countNl (chnoRender tvg_chno) = 0 := countNl_chnoRender tvg_chno
  constructor
  · rw [format_extinf]
    apply clean_append_one
    · simp only [countNl_append, h1, h2, h4, hname, hgrp, hdisp, hchno, hq]
      decide
    · decide
  · rw [format_extinf, strDataAppend,
      show ("\n" : String).data = [nlChar] from rfl, List.getLast?_concat]

/-! ### Helper lemmas about lookups and the sorted id list -/


theorem lookupCh_mem {cat : Catalog} {k : String} {c : Channel}
    (h : lookupCh cat k = Option.some c) : (k, c) ∈ cat := by
  rw [lookupCh] at h
  cases hf : cat.find? (fun kc => kc.1 == k) with
  | none => rw [hf] at h; exact absurd h (by simp)
  | some kc =>
    rw [hf] at h
    have hm := List.mem_of_find?_eq_some hf
    have hk : kc.1 = k := by
      have := List.find?_some hf
      simpa using this
    have hc : kc.2 = c := by simpa using h
    have : kc = (k, c) := by
      cases kc
      simp only at hk hc
      rw [hk, hc]
    rw [this] at hm
    exact hm

theorem lookupCh_isSome {cat : Catalog} {k : String}
    (h : k ∈ cat.map Prod.fst) : ∃ c, lookupCh cat k = Option.some c := by
  rcases List.mem_map.mp h with ⟨kc, hmem, hfst⟩
  have : (cat.find? (fun kc => kc.1 == k)).isSome := by
    rw [List.find?_isSome]
    exact ⟨kc, hmem, by simp [hfst]⟩
  rcases Option.isSome_iff_exists.mp this with ⟨kc2, hf⟩
  exact ⟨kc2.2, by rw [lookupCh, hf]; rfl⟩

theorem lookupCh_nodup {cat : Catalog} {k : String} {c : Channel}
    (hnd : (cat.map Prod.fst).Nodup) (hmem : (k, c) ∈ cat) :
    lookupCh cat k = Option.some c := by
  induction cat with
  | nil => exact absurd hmem (by simp)
  | cons kc rest ih =>
    rw [List.map_cons, List.nodup_cons] at hnd
    rcases List.mem_cons.mp hmem with heq | htail
    · rw [← heq, lookupCh, List.find?_cons_of_pos _ (by simp)]
      rfl
    · by_cases hk : kc.1 = k
      · exfalso
        apply hnd.1
        rw [hk]
        exact List.mem_map.mpr ⟨(k, c), htail, rfl⟩
      · rw [lookupCh, List.find?_cons_of_neg _ (by simpa using hk)]
        exact ih hnd.2 htail

theorem chnoSortKey_isSome {cat : Catalog} {k : String}
    (hconv : chnosConvertible cat = true) (hk : k ∈ cat.map Prod.fst) :
    (chnoSortKey cat k).isSome := by
  rcases lookupCh_isSome hk with ⟨c, hc⟩
  have hmem := lookupCh_mem hc
  have hcv := List.all_eq_true.mp hconv _ hmem
  rw [chnoSortKey, hc]
  simp only [Option.some_bind]
  cases hchno : c.chno with
  | none => simp [hchno, ChnoVal.toInt]
  | some v =>
    rw [hchno] at hcv
    simpa using hcv

theorem optMapAll_isSome {A B : Type} (f : A → Option B) (l : List A)
    (h : ∀ a ∈ l, (f a).isSome) : (optMapAll f l).isSome := by
  induction l with
  | nil => simp [optMapAll]
  | cons a rest ih =>
    rw [optMapAll]
    rcases Option.isSome_iff_exists.mp (h a (by simp)) with ⟨b, hb⟩
    rcases Option.isSome_iff_exists.mp (ih (fun x hx => h x (by simp [hx]))) with ⟨bs, hbs⟩
    simp [hb, hbs]

theorem keyEvalChno_isSome {cat : Catalog} (hconv : chnosConvertible cat = true) :
    (keyEvalChno cat).isSome :=
  optMapAll_isSome (chnoSortKey cat) _ (fun k hk => chnoSortKey_isSome hconv hk)

theorem charsLt_asymm : ∀ x y : List Char, charsLt x y = true → charsLt y x = false
  | _, [], h => by rw [charsLt] at h; exact absurd h (by simp)
  | [], b :: bs, _ => by rw [charsLt]
  | a :: as, b :: bs, h => by
    rw [charsLt] at h
    rw [charsLt]
    rcases lt_trichotomy a b with hab | hab | hab
    · rw [if_neg (not_lt_of_lt hab), if_pos hab]
    · rw [if_neg (by rw [hab]; exact lt_irrefl b), if_neg (by rw [hab]; exact lt_irrefl b)]
      rw [if_neg (by rw [hab]; exact lt_irrefl b), if_neg (by rw [hab]; exact lt_irrefl b)] at h
      exact charsLt_asymm as bs h
    · rw [if_neg (not_lt_of_lt hab), if_pos hab] at h
      exact absurd h (by simp)

theorem charsLt_trans : ∀ x y z : List Char,
    charsLt x y = true → charsLt y z = true → charsLt x z = true
  | _, _, [], _, h2 => by rw [charsLt] at h2; exact absurd h2 (by simp)
  | _, [], c :: cs, h1, _ => by rw [charsLt] at h1; exact absurd h1 (by simp)
  | [], b :: bs, c :: cs, _, _ => by rw [charsLt]
  | a :: as, b :: bs, c :: cs, h1, h2 => by
    rw [charsLt] at h1 h2
    rw [charsLt]
    rcases lt_trichotomy a b with hab | hab | hab
    · rcases lt_trichotomy b c with hbc | hbc | hbc
      · rw [if_pos (lt_trans hab hbc)]
      · rw [if_pos (hbc ▸ hab)]
      · rw [if_neg (not_lt_of_lt hbc), if_pos hbc] at h2
        exact absurd h2 (by simp)
    · subst hab
      rcases lt_trichotomy a c with hac | hac | hac
      · rw [if_pos hac]
      · subst hac
        rw [if_neg (lt_irrefl a), if_neg (lt_irrefl a)] at h1 h2 ⊢
        exact charsLt_trans as bs cs h1 h2
      · rw [if_neg (not_lt_of_lt hac), if_pos hac] at h2
        exact absurd h2 (by simp)
    · rw [if_neg (not_lt_of_lt hab), if_pos hab] at h1
      exact absurd h1 (by simp)

theorem charsLt_eq_of_not : ∀ x y : List Char,
    charsLt x y = false → charsLt y x = false → x = y
  | [], [], _, _ => rfl
  | [], b :: bs, h1, _ => by rw [charsLt] at h1; exact absurd h1 (by simp)
  | a :: as, [], _, h2 => by rw [charsLt] at h2; exact absurd h2 (by simp)
  | a :: as, b :: bs, h1, h2 => by
    rw [charsLt] at h1 h2
    rcases lt_trichotomy a b with hab | hab | hab
    · rw [if_pos hab] at h1
      exact absurd h1 (by simp)
    · subst hab
      rw [if_neg (lt_irrefl a), if_neg (lt_irrefl a)] at h1 h2
      rw [charsLt_eq_of_not as bs h1 h2]
    · rw [if_pos hab] at h2
      exact absurd h2 (by simp)

theorem pyStrLe_total (x y : String) : pyStrLe x y = true ∨ pyStrLe y x = true := by
  rw [pyStrLe, pyStrLe]
  cases h : charsLt y.data x.data with
  | false => exact Or.inl rfl
  | true => exact Or.inr (by rw [charsLt_asymm _ _ h]; rfl)

theorem pyStrLe_trans {x y z : String}
    (h1 : pyStrLe x y = true) (h2 : pyStrLe y z = true) : pyStrLe x z = true := by
  simp only [pyStrLe, Bool.not_eq_true'] at h1 h2 ⊢
  cases hzx : charsLt z.data x.data with
  | false => rfl
  | true =>
    exfalso
    cases hxy : charsLt x.data y.data with
    | true =>
      have h3 := charsLt_trans _ _ _ hzx hxy
      rw [h2] at h3
      exact Bool.false_ne_true h3
    | false =>
      have hx := charsLt_eq_of_not _ _ hxy h1
      rw [hx, h2] at hzx
      exact Bool.false_ne_true hzx

theorem stirrSortedIds_perm (cat : Catalog) (sort : String) :
    (stirrSortedIds cat sort).Perm (cat.map Prod.fst) := by
  rw [stirrSortedIds]
  cases h : (sort == "chno") with
  | false => exact List.perm_insertionSort _ _
  | true =>
    cases hk : keyEvalChno cat with
    | none => exact List.Perm.refl _
    | some l => exact List.perm_insertionSort _ _

theorem stirrSortedIds_sorted_chno (cat : Catalog) (hconv : chnosConvertible cat = true) :
    List.Pairwise (fun a b => chnoSortKeyD cat a ≤ chnoSortKeyD cat b)
      (stirrSortedIds cat "chno") := by
  rcases Option.isSome_iff_exists.mp (keyEvalChno_isSome hconv) with ⟨l, hl⟩
  rw [stirrSortedIds, show (("chno" : String) == "chno") = true from rfl, hl]
  haveI : IsTotal String (fun a b => chnoSortKeyD cat a ≤ chnoSortKeyD cat b) :=
    ⟨fun a b => le_total _ _⟩
  haveI : IsTrans String (fun a b => chnoSortKeyD cat a ≤ chnoSortKeyD cat b) :=
    ⟨fun a b c hab hbc => le_trans hab hbc⟩
  exact List.sorted_insertionSort _ _

theorem stirrSortedIds_sorted_name (cat : Catalog) :
    List.Pairwise (fun a b => pyStrLe (nameSortKey cat a) (nameSortKey cat b) = true)
      (stirrSortedIds cat "name") := by
  rw [stirrSortedIds, show (("name" : String) == "chno") = false from rfl]
  haveI : IsTotal String (fun a b => pyStrLe (nameSortKey cat a) (nameSortKey cat b) = true) :=
    ⟨fun a b => pyStrLe_total _ _⟩
  haveI : IsTrans String (fun a b => pyStrLe (nameSortKey cat a) (nameSortKey cat b) = true) :=
    ⟨fun a b c hab hbc => pyStrLe_trans hab hbc⟩
  exact List.sorted_insertionSort _ _

theorem flatMap_pair_congr {cat : Catalog} (ids : List String)
    (h : ∀ k ∈ ids, ∃ c, lookupCh cat k = Option.some c) :
    (ids.flatMap (fun k =>
      match lookupCh cat k with
      | Option.some c => channelEntry k c
      | Option.none => []))
    = ids.flatMap (fun k => [metaLineOf cat k, streamUrlFor k ++ "\n"]) := by
  induction ids with
  | nil => rfl
  | cons k ks ih =>
    rcases h k (by simp) with ⟨c, hc⟩
    rw [List.flatMap_cons, List.flatMap_cons, ih (fun x hx => h x (by simp [hx])), hc]
    rw [metaLineOf, hc]
    rfl

theorem flatMap_pair_length {α β : Type} (ids : List α) (f g : α → β) :
    (ids.flatMap (fun k => [f k, g k])).length = 2 * ids.length := by
  induction ids with
  | nil => rfl
  | cons k ks ih =>
    rw [List.flatMap_cons, List.length_append, ih]
    simp
    omega

/-- The generator on a dict `{"channels": v}` whose channels decode to `cat`:
it reduces to the writer call on the built playlist content. -/
theorem generate_happy (fs : FsOutcome) (v : PyVal) (cat : Catalog) (sort : String)
    (hdec : decodeCatalog v = Option.some cat) :
    generate_stirr_m3u fs (Option.some (stirrData v)) sort =
      (match write_m3u_file fs "stirr_all.m3u" (stirrContent cat sort) with
       | Except.error e => Except.error e
       | Except.ok w =>
         Except.ok { written := writtenOf w "stirr_all.m3u" (stirrContent cat sort),
                     errorLogged := w.errorLogged,
                     warnLogged := sortFellBack cat sort }) := by
  have h1 : generate_stirr_m3u fs (Option.some (stirrData v)) sort =
      (match decodeCatalog v with
       | Option.some cat =>
         (match write_m3u_file fs "stirr_all.m3u" (stirrContent cat sort) with
          | Except.error e => Except.error e
          | Except.ok w =>
            Except.ok { written := writtenOf w "stirr_all.m3u" (stirrContent cat sort),
                        errorLogged := w.errorLogged,
                        warnLogged := sortFellBack cat sort })
       | Option.none => Except.error PyExn.attrError) := rfl
  rw [h1, hdec]

/-- The writer succeeds when the directory is available and the write works. -/
theorem write_ok (fs : FsOutcome) (fn content : String)
    (hdir : (fs.dirExists || fs.mkdirOk) = true) (hw : fs.openWriteOk = true) :
    write_m3u_file fs fn content = .ok { wrote := true, errorLogged := false } := by
  rcases fs with ⟨de, mk, ow⟩
  simp only at hdir hw
  subst hw
  rw [write_m3u_file]
  cases de <;> cases mk <;> first | rfl | simp at hdir

/-! ### Claim C2: the chno sort -/


/-- C2: with sort key `chno` and every present `chno` convertible by `int()`,
the output order is a permutation of the catalog keys sorted ascending by the
numeric key, where a missing `chno` evaluates to 99999 (so it sorts after all
smaller numbers) and a present convertible `chno` evaluates to its numeric
value. -/
theorem chno_sort_orders_numerically (cat : Catalog)
    (hconv : chnosConvertible cat = true) :
    (stirrSortedIds cat "chno").Perm (cat.map Prod.fst) ∧
    List.Pairwise (fun a b => chnoSortKeyD cat a ≤ chnoSortKeyD cat b)
      (stirrSortedIds cat "chno") ∧
    (∀ k c, lookupCh cat k = Option.some c →
      (c.chno = Option.none → chnoSortKeyD cat k = 99999) ∧
      (∀ v n, c.chno = Option.some v → v.toInt = Option.some n →
        chnoSortKeyD cat k = n)) := by
  refine ⟨stirrSortedIds_perm cat "chno", stirrSortedIds_sorted_chno cat hconv, ?_⟩
  intro k c hk
  constructor
  · intro hnone
    rw [chnoSortKeyD, chnoSortKey, hk]
    simp [hnone, ChnoVal.toInt]
  · intro v n hv hn
    rw [chnoSortKeyD, chnoSortKey, hk]
    simp [hv, hn]

/-- Witness for C2 at the worked example: numbers 30/10/20 plus a number-less
channel sort to 10, 20, 30 and the number-less channel last. -/
theorem chno_sort_orders_numerically_witness :
    chnosConvertible c2cat = true ∧
    ((stirrSortedIds c2cat "chno").Perm (c2cat.map Prod.fst) ∧
      List.Pairwise (fun a b => chnoSortKeyD c2cat a ≤ chnoSortKeyD c2cat b)
        (stirrSortedIds c2cat "chno") ∧
      (∀ k c, lookupCh c2cat k = Option.some c →
        (c.chno = Option.none → chnoSortKeyD c2cat k = 99999) ∧
        (∀ v n, c.chno = Option.some v → v.toInt = Option.some n →
          chnoSortKeyD c2cat k = n))) ∧
    stirrSortedIds c2cat "chno" = ["b", "c", "a", "d"] ∧
    chnoSortKeyD c2cat "d" = 99999 :=
  ⟨by decide, chno_sort_orders_numerically c2cat (by decide), by decide, by decide⟩

/-! ### Claim C3: the default name sort -/


/-- C3: with the default sort key `name`, the output order is a permutation of
the catalog keys sorted ascending (Python string order) by the case-folded
display name; a channel missing a name gets the empty key and hence a key not
above any other channel's key.  The zebra/Apple example is included concretely. -/
theorem name_sort_case_insensitive (cat : Catalog) :
    (stirrSortedIds cat "name").Perm (cat.map Prod.fst) ∧
    List.Pairwise (fun a b => pyStrLe (nameSortKey cat a) (nameSortKey cat b) = true)
      (stirrSortedIds cat "name") ∧
    (∀ k c, lookupCh cat k = Option.some c → c.name = Option.none →
      ∀ x, pyStrLe (nameSortKey cat k) (nameSortKey cat x) = true) ∧
    stirrSortedIds c3cat "name" = ["p", "z"] := by
  refine ⟨stirrSortedIds_perm cat "name", stirrSortedIds_sorted_name cat, ?_, by decide⟩
  intro k c hk hname x
  have hkey : nameSortKey cat k = "" := by
    rw [nameSortKey, hk]
    simp [hname, pyLower]
  have hnil : ∀ cs : List Char, charsLt cs [] = false := by
    intro cs
    cases cs <;> rfl
  rw [hkey, pyStrLe, show ("" : String).data = [] from rfl, hnil]
  rfl

/-! ### Claim C4: sort-failure fallback -/


/-- C4: when evaluating the chno sort key raises (some present `chno` is not
convertible), the generator falls back to the catalog's insertion order, logs
the warning, and still builds and writes the playlist (given a writable
filesystem). -/
theorem sort_failure_falls_back (cat : Catalog) (v : PyVal) (fs : FsOutcome)
    (hdec : decodeCatalog v = Option.some cat)
    (hfail : keyEvalChno cat = Option.none)
    (hdir : (fs.dirExists || fs.mkdirOk) = true)
    (hw : fs.openWriteOk = true) :
    stirrSortedIds cat "chno" = cat.map Prod.fst ∧
    sortFellBack cat "chno" = true ∧
    generate_stirr_m3u fs (Option.some (stirrData v)) "chno" =
      .ok { written := Option.some ("stirr_all.m3u", stirrContent cat "chno"),
            errorLogged := false, warnLogged := true } := by
  have hfb : sortFellBack cat "chno" = true := by
    rw [sortFellBack, hfail]
    rfl
  refine ⟨?_, hfb, ?_⟩
  · rw [stirrSortedIds, show (("chno" : String) == "chno") = true from rfl, hfail]
  · rw [generate_happy fs v cat "chno" hdec,
      write_ok fs "stirr_all.m3u" (stirrContent cat "chno") hdir hw, hfb]
    rfl

/-- Witness for C4: a catalog whose first `chno` is the string
`"not-a-number"` keeps insertion order, warns, and still writes. -/
theorem sort_failure_falls_back_witness :
    decodeCatalog c4val = Option.some c4cat ∧
    keyEvalChno c4cat = Option.none ∧
    (fsOk.dirExists || fsOk.mkdirOk) = true ∧ fsOk.openWriteOk = true ∧
    (stirrSortedIds c4cat "chno" = c4cat.map Prod.fst ∧
      sortFellBack c4cat "chno" = true ∧
      generate_stirr_m3u fsOk (Option.some (stirrData c4val)) "chno" =
        .ok { written := Option.some ("stirr_all.m3u", stirrContent c4cat "chno"),
              errorLogged := false, warnLogged := true }) :=
  ⟨by decide, by decide, by decide, by decide,
    sort_failure_falls_back c4cat c4val fsOk (by decide) (by decide) (by decide) (by decide)⟩

theorem countNl_pyJoin (sep : String) (hsep : countNl sep = 0) :
    ∀ gs : List String, (∀ g ∈ gs, countNl g = 0) → countNl (pyJoin sep gs) = 0
  | [] => fun _ => by rw [pyJoin]; decide
  | [s] => fun h => by rw [pyJoin]; exact h s (by simp)
  | s :: t :: rest => fun h => by
      rw [pyJoin]
      · exact clean_append (clean_append (h s (by simp)) hsep)
          (countNl_pyJoin sep hsep (t :: rest) (fun g hg => h g (by simp [hg])))
      · simp

/-- C1 (amended with the newline-freeness hypothesis): with unique catalog
keys and no newline inside any channel field, `output_lines` is the header
followed by exactly one metadata line and one stream-URL line per channel in
sort order, the sorted ids are a duplicate-free permutation of the catalog
keys (no channel skipped or repeated), the list holds `1 + 2N` entries, and
every entry is exactly one newline-terminated text line (one newline, placed
last), so the joined playlist text consists of exactly `1 + 2N` lines. -/
theorem playlist_line_structure (cat : Catalog) (sort : String)
    (hnd : (cat.map Prod.fst).Nodup) (hclean : catClean cat = true) :
    (stirrSortedIds cat sort).Perm (cat.map Prod.fst) ∧
    (stirrSortedIds cat sort).Nodup ∧
    stirrLines cat sort
      = headerLine :: (stirrSortedIds cat sort).flatMap
          (fun k => [metaLineOf cat k, streamUrlFor k ++ "\n"]) ∧
    (stirrLines cat sort).length = 1 + 2 * cat.length ∧
    (∀ l ∈ stirrLines cat sort, countNl l = 1 ∧ l.data.getLast? = Option.some nlChar) := by
  have hperm := stirrSortedIds_perm cat sort
  have hlk : ∀ k ∈ stirrSortedIds cat sort, ∃ c, lookupCh cat k = Option.some c :=
    fun k hk => lookupCh_isSome (hperm.mem_iff.mp hk)
  have hstruct : stirrLines cat sort
      = headerLine :: (stirrSortedIds cat sort).flatMap
          (fun k => [metaLineOf cat k, streamUrlFor k ++ "\n"]) := by
    rw [stirrLines, flatMap_pair_congr _ hlk]
  refine ⟨hperm, hperm.nodup_iff.mpr hnd, hstruct, ?_, ?_⟩
  · rw [hstruct, List.length_cons, flatMap_pair_length, hperm.length_eq, List.length_map]
    omega
  · intro l hl
    rw [hstruct] at hl
    rcases List.mem_cons.mp hl with hh | hm
    · subst hh
      exact ⟨by decide, by decide⟩
    · rcases List.mem_flatMap.mp hm with ⟨k, hkids, hl2⟩
      rcases hlk k hkids with ⟨c, hc⟩
      have hkc : (k, c) ∈ cat := lookupCh_mem hc
      have hch := List.all_eq_true.mp hclean _ hkc
      simp only [chClean, Bool.and_eq_true] at hch
      obtain ⟨⟨⟨hk1, hname1⟩, hlogo1⟩, hgrp1⟩ := hch
      have hkcl : countNl k = 0 := strClean_eq_zero hk1
      have hnm : countNl (c.name.getD "Unknown Channel") = 0 := by
        cases hn : c.name with
        | none => decide
        | some s =>
          rw [hn] at hname1
          simpa using strClean_eq_zero hname1
      have hlg : countNl (c.logo.getD "") = 0 := by
        cases hn : c.logo with
        | none => decide
        | some s =>
          rw [hn] at hlogo1
          simpa using strClean_eq_zero hlogo1
      have hgt : countNl (groupTitleOf c) = 0 := by
        rw [groupTitleOf]
        cases hg : c.groups with
        | none => decide
        | some gs =>
          rw [hg] at hgrp1
          cases gs with
          | nil => decide
          | cons g rest =>
            exact countNl_pyJoin ", " (by decide) (g :: rest)
              (fun x hx => strClean_eq_zero (List.all_eq_true.mp hgrp1 x hx))
      have hurl : countNl (streamUrlFor k) = 0 := by
        rw [streamUrlFor]
        exact clean_append (clean_append (by decide) hkcl) (by decide)
      rcases (by simpa using hl2 :
          l = metaLineOf cat k ∨ l = streamUrlFor k ++ "\n") with hml | hml
      · rw [hml, metaLineOf, hc]
        exact format_extinf_line k k c.chno (c.name.getD "Unknown Channel")
          (c.logo.getD "") (groupTitleOf c) (c.name.getD "Unknown Channel")
          hkcl hkcl hnm hlg hgt hnm
      · rw [hml]
        constructor
        · exact clean_append_one hurl (by decide)
        · rw [strDataAppend, show ("\n" : String).data = [nlChar] from rfl,
            List.getLast?_concat]

/-- Counterexample to C1 as stated: one channel whose display name contains a
newline.  Were the playlist text exactly one header line plus `2 × N = 2`
newline-terminated lines, it would contain exactly 3 newlines; it contains 5
(the name's newline flows into both the metadata line and the trailing
display name). -/
theorem playlist_line_structure_cex :
    countNl (stirrContent c1cexCat "name") = 5 ∧
    ¬ countNl (stirrContent c1cexCat "name") = 1 + 2 * c1cexCat.length := by
  constructor
  · decide
  · decide

/-- Witness for the amended C1 on a clean two-channel catalog under the
default name sort. -/
theorem playlist_line_structure_witness :
    (c1wCat.map Prod.fst).Nodup ∧ catClean c1wCat = true ∧
    ((stirrSortedIds c1wCat "name").Perm (c1wCat.map Prod.fst) ∧
      (stirrSortedIds c1wCat "name").Nodup ∧
      stirrLines c1wCat "name"
        = headerLine :: (stirrSortedIds c1wCat "name").flatMap
            (fun k => [metaLineOf c1wCat k, streamUrlFor k ++ "\n"]) ∧
      (stirrLines c1wCat "name").length = 1 + 2 * c1wCat.length ∧
      (∀ l ∈ stirrLines c1wCat "name",
        countNl l = 1 ∧ l.data.getLast? = Option.some nlChar)) :=
  ⟨by decide, by decide, playlist_line_structure c1wCat "name" (by decide) (by decide)⟩

/-! ### Claim C5: the `#EXTINF` formatter -/


/-- C5 (amended with the newline-freeness hypothesis): on newline-free string
inputs `format_extinf` returns a single newline-terminated line, equal to the
attribute fields in the fixed order
channel-id, tvg-id, tvg-chno, tvg-name, tvg-logo, group-title, then a comma
and the display name; the tvg-chno field is the channel number exactly when it
is non-None with an all-digits string form and empty otherwise; every double
quote in tvg-name and group-title becomes a single quote; and every comma in
the display name is removed. -/
theorem format_extinf_spec (channel_id tvg_id : String) (tvg_chno : Option ChnoVal)
    (tvg_name tvg_logo group_title display_name : String)
    (h1 : countNl channel_id = 0) (h2 : countNl tvg_id = 0)
    (h3 : countNl tvg_name = 0) (h4 : countNl tvg_logo = 0)
    (h5 : countNl group_title = 0) (h6 : countNl display_name = 0) :
    countNl (format_extinf channel_id tvg_id tvg_chno
      tvg_name tvg_logo group_title display_name) = 1 ∧
    (format_extinf channel_id tvg_id tvg_chno
      tvg_name tvg_logo group_title display_name).data.getLast? = Option.some nlChar ∧
    format_extinf channel_id tvg_id tvg_chno tvg_name tvg_logo group_title display_name
      = "#EXTINF:-1 channel-id=" ++ dq ++ channel_id ++ dq
        ++ " tvg-id=" ++ dq ++ tvg_id ++ dq
        ++ " tvg-chno=" ++ dq ++ chnoRender tvg_chno ++ dq
        ++ " tvg-name=" ++ dq ++ replaceQuotes tvg_name ++ dq
        ++ " tvg-logo=" ++ dq ++ tvg_logo ++ dq
        ++ " group-title=" ++ dq ++ replaceQuotes group_title ++ dq ++ ","
        ++ stripCommas display_name ++ "\n" ∧
    chnoRender Option.none = "" ∧
    (∀ v, pyIsdigit v.render = true → chnoRender (Option.some v) = v.render) ∧
    (∀ v, pyIsdigit v.render = false → chnoRender (Option.some v) = "") ∧
    (replaceQuotes tvg_name).data.count dqChar = 0 ∧
    (replaceQuotes group_title).data.count dqChar = 0 ∧
    (replaceQuotes tvg_name).data.count sqChar
      = tvg_name.data.count sqChar + tvg_name.data.count dqChar ∧
    (replaceQuotes group_title).data.count sqChar
      = group_title.data.count sqChar + group_title.data.count dqChar ∧
    (stripCommas display_name).data.count commaChar = 0 := by
  obtain ⟨hcnt, hlast⟩ := format_extinf_line channel_id tvg_id tvg_chno
    tvg_name tvg_logo group_title display_name h1 h2 h3 h4 h5 h6
  refine ⟨hcnt, hlast, rfl, rfl, ?_, ?_, replaceQuotes_no_dq _, replaceQuotes_no_dq _,
    replaceQuotes_sq_count _, replaceQuotes_sq_count _, stripCommas_no_comma _⟩
  · intro v hv
    simp [chnoRender, hv]
  · intro v hv
    simp [chnoRender, hv]

/-- Counterexample to C5 as stated: a display name containing a newline makes
the result contain two newlines, so it is not a single newline-terminated
line. -/
theorem format_extinf_single_line_cex :
    countNl (format_extinf "a" "a" Option.none "n" ""
      "" ("x" ++ String.singleton nlChar ++ "y")) = 2 ∧
    ¬ countNl (format_extinf "a" "a" Option.none "n" ""
      "" ("x" ++ String.singleton nlChar ++ "y")) = 1 := by
  constructor
  · decide
  · decide

/-- Witness for the amended C5, including the worked example: display name
`News, Live` is rendered after the comma with its comma removed. -/
theorem format_extinf_spec_witness :
    countNl "id1" = 0 ∧ countNl "Chan 7" = 0 ∧ countNl "http://logo" = 0 ∧
    countNl "News" = 0 ∧ countNl "News, Live" = 0 ∧
    (countNl (format_extinf "id1" "id1" (Option.some (ChnoVal.ofInt 7))
      "Chan 7" "http://logo" "News" "News, Live") = 1 ∧
    (format_extinf "id1" "id1" (Option.some (ChnoVal.ofInt 7))
      "Chan 7" "http://logo" "News" "News, Live").data.getLast? = Option.some nlChar ∧
    format_extinf "id1" "id1" (Option.some (ChnoVal.ofInt 7))
        "Chan 7" "http://logo" "News" "News, Live"
      = "#EXTINF:-1 channel-id=" ++ dq ++ "id1" ++ dq
        ++ " tvg-id=" ++ dq ++ "id1" ++ dq
        ++ " tvg-chno=" ++ dq ++ chnoRender (Option.some (ChnoVal.ofInt 7)) ++ dq
        ++ " tvg-name=" ++ dq ++ replaceQuotes "Chan 7" ++ dq
        ++ " tvg-logo=" ++ dq ++ "http://logo" ++ dq
        ++ " group-title=" ++ dq ++ replaceQuotes "News" ++ dq ++ ","
        ++ stripCommas "News, Live" ++ "\n" ∧
    chnoRender Option.none = "" ∧
    (∀ v, pyIsdigit v.render = true → chnoRender (Option.some v) = v.render) ∧
    (∀ v, pyIsdigit v.render = false → chnoRender (Option.some v) = "") ∧
    (replaceQuotes "Chan 7").data.count dqChar = 0 ∧
    (replaceQuotes "News").data.count dqChar = 0 ∧
    (replaceQuotes "Chan 7").data.count sqChar
      = ("Chan 7" : String).data.count sqChar + ("Chan 7" : String).data.count dqChar ∧
    (replaceQuotes "News").data.count sqChar
      = ("News" : String).data.count sqChar + ("News" : String).data.count dqChar ∧
    (stripCommas "News, Live").data.count commaChar = 0) ∧
    stripCommas "News, Live" = "News Live" ∧
    chnoRender (Option.some (ChnoVal.ofInt 7)) = "7" :=
  ⟨by decide, by decide, by decide, by decide, by decide,
    format_extinf_spec "id1" "id1" (Option.some (ChnoVal.ofInt 7))
      "Chan 7" "http://logo" "News" "News, Live"
      (by decide) (by decide) (by decide) (by decide) (by decide) (by decide),
    by decide, by decide⟩

/-- C6 (amended: the non-fetched data is absent, falsy, or a container
lacking `channels`): the generator logs the error and returns with no file
written and no exception, whatever the filesystem would do. -/
theorem fetch_failure_no_write (fs : FsOutcome) (data : Option PyVal) (sort : String)
    (h : gateFails data = true) :
    generate_stirr_m3u fs data sort =
      .ok { written := Option.none, errorLogged := true, warnLogged := false } := by
  cases data with
  | none => rfl
  | some v =>
    rw [generate_stirr_m3u]
    rw [gateFails] at h
    cases ht : pyTruthy v with
    | false => rfl
    | true =>
      rw [ht] at h
      cases hc : pyContains v "channels" with
      | error e =>
        rw [hc] at h
        exact absurd h (by simp)
      | ok b =>
        cases b with
        | false => rfl
        | true =>
          rw [hc] at h
          exact absurd h (by simp)

/-- Counterexample to C6 as stated: JSON body `5` is data lacking the
`channels` field, yet the membership test `'channels' not in data` raises
`TypeError`, which escapes `generate_stirr_m3u` instead of a clean return. -/
theorem fetch_failure_no_write_cex :
    generate_stirr_m3u fsOk (Option.some (PyVal.int 5)) "name" =
      .error PyExn.typeError := rfl

/-- Witness for the amended C6: a dict without a `channels` key, over a
filesystem that would fail, still returns cleanly with nothing written. -/
theorem fetch_failure_no_write_witness :
    gateFails (Option.some (PyVal.dict [("other", PyVal.int 1)])) = true ∧
    generate_stirr_m3u fsNoMkdir (Option.some (PyVal.dict [("other", PyVal.int 1)])) "name" =
      .ok { written := Option.none, errorLogged := true, warnLogged := false } :=
  ⟨by decide, fetch_failure_no_write fsNoMkdir
    (Option.some (PyVal.dict [("other", PyVal.int 1)])) "name" (by decide)⟩

/-- C10: a successfully parsed but falsy JSON value (`{}`, `[]`, `null`, `0`,
`false`, `""`) is indistinguishable at the call site from a failed fetch:
`generate_stirr_m3u` returns exactly the same result as on no data — error
logged, nothing written, no exception. -/
theorem falsy_data_like_failure (fs : FsOutcome) (v : PyVal) (sort : String)
    (h : pyTruthy v = false) :
    generate_stirr_m3u fs (Option.some v) sort = generate_stirr_m3u fs Option.none sort ∧
    generate_stirr_m3u fs (Option.some v) sort =
      .ok { written := Option.none, errorLogged := true, warnLogged := false } := by
  have h2 : generate_stirr_m3u fs (Option.some v) sort =
      .ok { written := Option.none, errorLogged := true, warnLogged := false } := by
    rw [generate_stirr_m3u, h]
  exact ⟨by rw [h2]; rfl, h2⟩

/-- Witness for C10 at the parsed empty object `{}`. -/
theorem falsy_data_like_failure_witness :
    pyTruthy (PyVal.dict []) = false ∧
    (generate_stirr_m3u fsOk (Option.some (PyVal.dict [])) "name" =
        generate_stirr_m3u fsOk Option.none "name" ∧
      generate_stirr_m3u fsOk (Option.some (PyVal.dict [])) "name" =
        .ok { written := Option.none, errorLogged := true, warnLogged := false }) :=
  ⟨by decide, falsy_data_like_failure fsOk (PyVal.dict []) "name" (by decide)⟩

/-! ### Claim C8: the writer never raises -/


/-- C8 (amended: the directory must exist or `os.makedirs` must succeed):
under that condition no exception escapes `generate_stirr_m3u` on a catalog
input, and an `open`/`write` failure is swallowed — error logged, nothing
written.  (The unguarded `os.makedirs` of lines 65-67 is exactly what the
counterexample exploits.) -/
theorem write_failure_never_raises (fs : FsOutcome) (v : PyVal) (cat : Catalog)
    (sort : String)
    (hdec : decodeCatalog v = Option.some cat)
    (hdir : (fs.dirExists || fs.mkdirOk) = true) :
    (∃ r, generate_stirr_m3u fs (Option.some (stirrData v)) sort = .ok r) ∧
    (fs.openWriteOk = false →
      generate_stirr_m3u fs (Option.some (stirrData v)) sort =
        .ok { written := Option.none, errorLogged := true,
              warnLogged := sortFellBack cat sort }) := by
  rw [generate_happy fs v cat sort hdec]
  cases how : fs.openWriteOk with
  | true =>
    rw [write_ok fs _ _ hdir how]
    exact ⟨⟨_, rfl⟩, fun hfalse => absurd hfalse (by simp)⟩
  | false =>
    have hw : write_m3u_file fs "stirr_all.m3u" (stirrContent cat sort) =
        .ok { wrote := false, errorLogged := true } := by
      rcases fs with ⟨de, mk, ow⟩
      simp only at hdir how
      subst how
      rw [write_m3u_file]
      cases de <;> cases mk <;> first | rfl | simp at hdir
    rw [hw]
    exact ⟨⟨_, rfl⟩, fun _ => rfl⟩

/-- Counterexample to C8 as stated: when the output directory is missing and
`os.makedirs` fails, the failure is raised outside the `try` of lines 70-74,
so `write_m3u_file` — and with it `generate_stirr_m3u` — raises `OSError`
instead of logging and returning. -/
theorem write_failure_never_raises_cex :
    write_m3u_file fsNoMkdir "stirr_all.m3u" "x" = .error PyExn.osError ∧
    generate_stirr_m3u fsNoMkdir (Option.some (stirrData (PyVal.dict []))) "name" =
      .error PyExn.osError :=
  ⟨rfl, rfl⟩

/-- Witness for the amended C8: with the directory present but the write
failing, the generator returns normally, logs the error and writes nothing. -/
theorem write_failure_never_raises_witness :
    decodeCatalog (PyVal.dict []) = Option.some ([] : Catalog) ∧
    (fsBadWrite.dirExists || fsBadWrite.mkdirOk) = true ∧
    ((∃ r, generate_stirr_m3u fsBadWrite
        (Option.some (stirrData (PyVal.dict []))) "name" = .ok r) ∧
      (fsBadWrite.openWriteOk = false →
        generate_stirr_m3u fsBadWrite (Option.some (stirrData (PyVal.dict []))) "name" =
          .ok { written := Option.none, errorLogged := true,
                warnLogged := sortFellBack ([] : Catalog) "name" })) :=
  ⟨by decide, by decide,
    write_failure_never_raises fsBadWrite (PyVal.dict []) [] "name" (by decide) (by decide)⟩

/-! ### Claim C9: determinism -/


/-- C9: the written playlist bytes are the value of the pure function
`stirrContent` of the parsed catalog and the sort key alone — the generator,
run twice on the same parsed input over a working filesystem, writes the
byte-identical content (there is no other input to the computation). -/
theorem pipeline_deterministic (fs : FsOutcome) (v : PyVal) (cat : Catalog) (sort : String)
    (hdec : decodeCatalog v = Option.some cat)
    (hdir : (fs.dirExists || fs.mkdirOk) = true) (hw : fs.openWriteOk = true) :
    generate_stirr_m3u fs (Option.some (stirrData v)) sort =
      .ok { written := Option.some ("stirr_all.m3u", stirrContent cat sort),
            errorLogged := false, warnLogged := sortFellBack cat sort } := by
  rw [generate_happy fs v cat sort hdec, write_ok fs _ _ hdir hw]
  rfl

/-- Witness for C9 on a concrete two-channel catalog. -/
theorem pipeline_deterministic_witness :
    decodeCatalog c1wVal = Option.some c1wCat ∧
    (fsOk.dirExists || fsOk.mkdirOk) = true ∧ fsOk.openWriteOk = true ∧
    generate_stirr_m3u fsOk (Option.some (stirrData c1wVal)) "name" =
      .ok { written := Option.some ("stirr_all.m3u", stirrContent c1wCat "name"),
            errorLogged := false, warnLogged := sortFellBack c1wCat "name" } :=
  ⟨by decide, by decide, by decide,
    pipeline_deterministic fsOk c1wVal c1wCat "name" (by decide) (by decide) (by decide)⟩

/-! ### Claim C7: the gzip fallback in the fetcher -/


/-- C7 (amended: the fallback happens when the body is not gzip data at all —
`BadGzipFile` — and the raw bytes decode as UTF-8): `fetch_url` then continues
with the raw body text, returning it directly or handing it to the JSON
parser.  (Decompression failures on gzip-shaped data are re-raised and the
fetch returns no data; see the counterexample.) -/
theorem gzip_badfile_falls_back (raw : List Nat) (t : String)
    (jsonLoads : String → Option PyVal) (is_json : Bool)
    (hdec : utf8Decode raw = Option.some t) :
    (is_json = false →
      fetch_url (.resp ⟨true, .notGzip raw⟩) jsonLoads is_json true false =
        FetchReturn.textData t) ∧
    (is_json = true →
      fetch_url (.resp ⟨true, .notGzip raw⟩) jsonLoads is_json true false =
        (jsonLoads t).elim FetchReturn.noData FetchReturn.jsonData) := by
  have h1 : fetch_url (.resp ⟨true, .notGzip raw⟩) jsonLoads is_json true false =
      (match utf8Decode raw with
       | Option.none => FetchReturn.noData
       | Option.some t =>
         match is_json with
         | true =>
           (match jsonLoads t with
            | Option.some v => FetchReturn.jsonData v
            | Option.none => FetchReturn.noData)
         | false => FetchReturn.textData t) := rfl
  rw [h1, hdec]
  constructor
  · intro hj
    rw [hj]
  · intro hj
    rw [hj]
    show (match jsonLoads t with
      | Option.some v => FetchReturn.jsonData v
      | Option.none => FetchReturn.noData)
      = (jsonLoads t).elim FetchReturn.noData FetchReturn.jsonData
    cases jsonLoads t with
    | none => rfl
    | some v => rfl

/-- Counterexample to C7 as stated: a gzip-shaped but corrupt body (for
example the bare magic bytes `1f 8b`, which make `GzipFile.read` raise
`EOFError`, not `BadGzipFile`) is re-raised by the line-39 handler and the
fetch returns no data — it does not fall back to plain text, whatever the
JSON parser would do. -/
theorem gzip_corrupt_fails_cex :
    fetch_url (.resp ⟨true, .corruptGzip [31, 139]⟩) (fun _ => Option.none)
      true true false = FetchReturn.noData ∧
    fetch_url (.resp ⟨true, .corruptGzip [31, 139]⟩)
      (fun t => Option.some (PyVal.str t)) true true false = FetchReturn.noData ∧
    fetch_url (.resp ⟨true, .corruptGzip [31, 139]⟩) (fun _ => Option.none)
      false true false = FetchReturn.noData :=
  ⟨rfl, rfl, rfl⟩

/-- Witness for the amended C7: non-gzip bytes `68 69` (`hi`) with
`is_json = False` come back as the plain text `hi`. -/
theorem gzip_badfile_falls_back_witness :
    utf8Decode [104, 105] = Option.some "hi" ∧
    ((false = false →
      fetch_url (.resp ⟨true, .notGzip [104, 105]⟩) (fun _ => Option.none) false true false =
        FetchReturn.textData "hi") ∧
    (false = true →
      fetch_url (.resp ⟨true, .notGzip [104, 105]⟩) (fun _ => Option.none) false true false =
        ((fun _ => Option.none) "hi").elim FetchReturn.noData FetchReturn.jsonData)) :=
  ⟨by decide, gzip_badfile_falls_back [104, 105] "hi" (fun _ => Option.none) false (by decide)⟩
